import Mathlib

/-!
Verification development for the filezap file-sharing tool.

The definitions below are a shallow embedding of the parts of the source
that the verified properties speak about:

* the JSON framing used on the WebSocket wire: the sender and the receiver
  call JSON.parse on every incoming frame and fall back to treating the
  frame as raw file content when parsing throws
  (src/server.js, src/unnamed/part_000 lines 1211-1274, and the receiver
  receiveFile in src/src/server.js lines 190-270);
* the per-connection message handler of the sender
  (src/unnamed/part_000, startFileServer, lines 1211-1298);
* the frame dispatch of the receiver (src/src/server.js lines 190-270);
* the tunnel failure handling of the sender
  (src/unnamed/part_000 lines 935-970);
* the Serveo tunnel manager state and teardown
  (src/unnamed/part_001, class ServeoTunnelManager);
* the persisted tunnel registry (src/utils/tunnelManager.js registerTunnel,
  src/unnamed/part_001 lines 165-170);
* the collision-free destination naming of the receiver
  (src/src/server.js, receiveFile, lines 131-141).

File content and wire frames are modelled as Lean strings (sequences of
characters standing for the bytes of a frame); the size of a file is the
length of its content string.
-/

namespace FileZap

/-! ## Decimal rendering of numbers

Models the JavaScript template conversion of a nonnegative integer to its
decimal digit string, as used for the collision counter in
`${baseName}_${counter}${ext}` (src/src/server.js line 139) and for the
fileSize field produced by JSON.stringify in the metadata frame
(src/unnamed/part_000 lines 1233-1237).  The fuel argument of the helper
is only there to make the recursion structural; natDecChars supplies
enough fuel for every input. -/

def natDecCharsAux : Nat → Nat → List Char
  | 0, n => [Char.ofNat (48 + n % 10)]
  | fuel + 1, n =>
    if n < 10 then [Char.ofNat (48 + n)]
    else natDecCharsAux fuel (n / 10) ++ [Char.ofNat (48 + n % 10)]

/-- Decimal digit characters of a natural number, most significant first. -/
def natDecChars (n : Nat) : List Char := natDecCharsAux n n

/-- Value of a list of decimal digit characters; left inverse of
natDecChars, used to prove injectivity of the rendering. -/
def ofDecChars (cs : List Char) : Nat :=
  cs.foldl (fun a c => 10 * a + (c.toNat - 48)) 0

/-! ## A model of JSON.parse

Both ends of the wire protocol distinguish control frames from binary
payload by attempting JSON.parse on the frame and catching the exception
(src/unnamed/part_000 lines 1211-1273, src/src/server.js lines 190-270).
The parser below models JSON.parse: whitespace, null, booleans, numbers
(kept as their lexeme, since no verified property inspects a numeric
value), strings with the standard escape sequences, arrays and objects.
Nesting of arrays and objects is bounded by a fuel argument so that the
recursion is structural; jsonParse supplies one unit of fuel per input
character, which no actual input can exhaust, since entering a nested
value always consumes at least one character. -/

/-- JSON values as produced by the modelled JSON.parse. -/
inductive Json where
  | null
  | bool (b : Bool)
  | num (lexeme : List Char)
  | str (s : String)
  | arr (elems : List Json)
  | obj (fields : List (String × Json))

/-- The four whitespace characters JSON.parse skips between tokens. -/
def isJsonWs (c : Char) : Bool :=
  c = ' ' || c = '\t' || c = '\n' || c = '\r'

/-- Skip insignificant whitespace. -/
def skipWs (cs : List Char) : List Char := cs.dropWhile isJsonWs

/-- Decimal digit test, as in the JSON number grammar. -/
def isDigitChar (c : Char) : Bool := c.isDigit

/-- Value of one hexadecimal digit, for the uXXXX escape. -/
def hexVal (c : Char) : Option Nat :=
  if '0' ≤ c ∧ c ≤ '9' then some (c.toNat - 48)
  else if 'a' ≤ c ∧ c ≤ 'f' then some (c.toNat - 87)
  else if 'A' ≤ c ∧ c ≤ 'F' then some (c.toNat - 55)
  else none

/-- The single-character escape sequences of JSON strings. -/
def unescapeChar (c : Char) : Option Char :=
  if c = '"' then some '"'
  else if c = '\\' then some '\\'
  else if c = '/' then some '/'
  else if c = 'b' then some '\x08'
  else if c = 'f' then some '\x0c'
  else if c = 'n' then some '\x0a'
  else if c = 'r' then some '\x0d'
  else if c = 't' then some '\x09'
  else none

/-- First character of a list, with the remainder. -/
def uncons : List Char → Option (Char × List Char)
  | [] => none
  | c :: cs => some (c, cs)

/-- Consume one expected character. -/
def headIs (c : Char) : List Char → Option (List Char)
  | [] => none
  | x :: rest => if x = c then some rest else none

/-- Decode the four hexadecimal digits of a uXXXX escape. -/
def parseHex4 : List Char → Option (Char × List Char)
  | h1 :: h2 :: h3 :: h4 :: rest =>
    (hexVal h1).bind fun a =>
    (hexVal h2).bind fun b =>
    (hexVal h3).bind fun c =>
    (hexVal h4).bind fun d =>
    some (Char.ofNat (4096 * a + 256 * b + 16 * c + d), rest)
  | _ => none

/-- Decode one escape sequence after the backslash. -/
def parseEsc : List Char → Option (Char × List Char)
  | [] => none
  | e :: cs2 =>
    if e = 'u' then parseHex4 cs2
    else (unescapeChar e).map (fun u => (u, cs2))

/-- Parse the body of a JSON string after the opening quote.  Returns the
decoded characters and the input remaining after the closing quote.  Raw
control characters below 0x20 are a syntax error, as in JSON.parse.  The
fuel decreases by one per decoded character, so one unit per input
character is always enough; parseStr below supplies it. -/
def parseStrBody : Nat → List Char → Option (List Char × List Char)
  | 0, _ => none
  | _ + 1, [] => none
  | fuel + 1, c :: cs =>
    if c = '"' then some ([], cs)
    else if c = '\\' then
      (parseEsc cs).bind fun p =>
        (parseStrBody fuel p.2).map fun q => (p.1 :: q.1, q.2)
    else if c.toNat < 32 then none
    else (parseStrBody fuel cs).map fun q => (c :: q.1, q.2)

/-- Parse a JSON string body with sufficient fuel. -/
def parseStr (cs : List Char) : Option (List Char × List Char) :=
  parseStrBody (cs.length + 1) cs

/-- Nonempty digit run with the sign and marker characters prepended. -/
def digitRun (marks : List Char) (r : List Char) : Option (List Char × List Char) :=
  if r.takeWhile isDigitChar = [] then none
  else some (marks ++ r.takeWhile isDigitChar, r.dropWhile isDigitChar)

/-- Exponent part of a JSON number after the e or E marker. -/
def parseExpTail (e : Char) (cs : List Char) : Option (List Char × List Char) :=
  (headIs '+' cs).elim
    ((headIs '-' cs).elim
      (digitRun [e] cs)
      (fun r => digitRun [e, '-'] r))
    (fun r => digitRun [e, '+'] r)

/-- Optional exponent part of a JSON number. -/
def parseExpPart (cs : List Char) : Option (List Char × List Char) :=
  (headIs 'e' cs).elim
    ((headIs 'E' cs).elim (some ([], cs)) (parseExpTail 'E'))
    (parseExpTail 'e')

/-- Optional fraction part, followed by the optional exponent part. -/
def parseFracPart (cs : List Char) : Option (List Char × List Char) :=
  (headIs '.' cs).elim (parseExpPart cs)
    (fun rest =>
      if rest.takeWhile isDigitChar = [] then none
      else
        (parseExpPart (rest.dropWhile isDigitChar)).map
          (fun p => ('.' :: rest.takeWhile isDigitChar ++ p.1, p.2)))

/-- A JSON number without a leading minus sign.  A leading zero may not be
followed by further digits, as in the JSON grammar. -/
def parseNumberPos (cs : List Char) : Option (List Char × List Char) :=
  (uncons cs).bind fun p =>
    if p.1 = '0' then (parseFracPart p.2).map (fun q => ('0' :: q.1, q.2))
    else if isDigitChar p.1 then
      (parseFracPart (p.2.dropWhile isDigitChar)).map
        (fun q => (p.1 :: (p.2.takeWhile isDigitChar ++ q.1), q.2))
    else none

/-- A JSON number, with an optional leading minus sign. -/
def parseNumber (cs : List Char) : Option (List Char × List Char) :=
  (uncons cs).bind fun p =>
    if p.1 = '-' then (parseNumberPos p.2).map (fun q => ('-' :: q.1, q.2))
    else parseNumberPos cs

/-- Consume an expected literal tail such as ull of null. -/
def dropLit : List Char → List Char → Option (List Char)
  | [], cs => some cs
  | p :: ps, c :: cs => if c = p then dropLit ps cs else none
  | _ :: _, [] => none

mutual

/-- Parse one JSON value.  The fuel bounds the nesting depth of arrays and
objects only. -/
def parseValue : Nat → List Char → Option (Json × List Char)
  | 0, _ => none
  | fuel + 1, cs =>
    (uncons (skipWs cs)).bind fun h =>
      if h.1 = '"' then
        (parseStr h.2).map (fun p => (Json.str (String.mk p.1), p.2))
      else if h.1 = '\x7b' then
        (headIs '\x7d' (skipWs h.2)).elim
          ((parseObjFields fuel (skipWs h.2)).map (fun p => (Json.obj p.1, p.2)))
          (fun rest2 => some (Json.obj [], rest2))
      else if h.1 = '[' then
        (headIs ']' (skipWs h.2)).elim
          ((parseArrElems fuel (skipWs h.2)).map (fun p => (Json.arr p.1, p.2)))
          (fun rest2 => some (Json.arr [], rest2))
      else if h.1 = 'n' then (dropLit ['u', 'l', 'l'] h.2).map (fun r => (Json.null, r))
      else if h.1 = 't' then (dropLit ['r', 'u', 'e'] h.2).map (fun r => (Json.bool true, r))
      else if h.1 = 'f' then (dropLit ['a', 'l', 's', 'e'] h.2).map (fun r => (Json.bool false, r))
      else if h.1 = '-' || isDigitChar h.1 then
        (parseNumber (h.1 :: h.2)).map (fun p => (Json.num p.1, p.2))
      else none

/-- Parse the nonempty field list of a JSON object, up to and including the
closing brace. -/
def parseObjFields : Nat → List Char → Option (List (String × Json) × List Char)
  | 0, _ => none
  | fuel + 1, cs =>
    (headIs '"' (skipWs cs)).bind fun rest =>
    (parseStr rest).bind fun kp =>
    (headIs ':' (skipWs kp.2)).bind fun rest2 =>
    (parseValue fuel rest2).bind fun vp =>
    (headIs ',' (skipWs vp.2)).elim
      ((headIs '\x7d' (skipWs vp.2)).map
        (fun rest4 => ([(String.mk kp.1, vp.1)], rest4)))
      (fun rest4 =>
        (parseObjFields fuel rest4).map
          (fun p => ((String.mk kp.1, vp.1) :: p.1, p.2)))

/-- Parse the nonempty element list of a JSON array, up to and including
the closing bracket. -/
def parseArrElems : Nat → List Char → Option (List Json × List Char)
  | 0, _ => none
  | fuel + 1, cs =>
    (parseValue fuel cs).bind fun vp =>
    (headIs ',' (skipWs vp.2)).elim
      ((headIs ']' (skipWs vp.2)).map (fun rest2 => ([vp.1], rest2)))
      (fun rest2 => (parseArrElems fuel rest2).map (fun p => (vp.1 :: p.1, p.2)))

end

/-- The model of JSON.parse: parse one value and require that only
whitespace remains.  Returns none exactly where JSON.parse throws. -/
def jsonParse (s : String) : Option Json :=
  (parseValue (s.data.length + 1) s.data).bind fun p =>
    if skipWs p.2 = [] then some p.1 else none

/-! ## Reading fields of a parsed control frame

Property access in JavaScript on the value returned by JSON.parse:
a missing key yields undefined, and on duplicate keys in the literal the
last occurrence wins. -/

/-- The string payload of a string value, none otherwise. -/
def Json.asStr : Json → Option String
  | Json.str s => some s
  | _ => none

/-- Whether a value is the JSON null. -/
def Json.isNull : Json → Bool
  | Json.null => true
  | _ => false

/-- Last binding of a key in an object field list (JavaScript duplicate-key
semantics). -/
def lookupLast (fields : List (String × Json)) (k : String) : Option Json :=
  match fields with
  | [] => none
  | (k1, v) :: rest =>
    (lookupLast rest k).elim (if k1 = k then some v else none) some

/-- Field access data.k; none models undefined (also for non-objects). -/
def jsonField (v : Json) (k : String) : Option Json :=
  match v with
  | Json.obj fields => lookupLast fields k
  | _ => none

/-- The test data.type === t of the handlers: true only when the type
field exists and is exactly the string t. -/
def typeIs (v : Json) (t : String) : Bool :=
  (jsonField v "type").bind Json.asStr == some t

/-- The test data.k === s for a string s: true only when field k exists
and is exactly the string s. -/
def fieldEqStr (v : Json) (k s : String) : Bool :=
  (jsonField v k).bind Json.asStr == some s

/-- The expression data.clientName || "Unknown client" of the sender
(src/unnamed/part_000 line 1229): a nonempty string field is used,
anything else falls back to the default.  (A truthy non-string field would
be stringified by JavaScript; no verified property exercises that case.) -/
def clientNameOf (v : Json) : String :=
  ((jsonField v "clientName").bind Json.asStr).elim "Unknown client"
    (fun s => if s = "" then "Unknown client" else s)

/-! ## The sender: per-connection message handler

Shallow embedding of the ws.on message callback of startFileServer
(src/unnamed/part_000 lines 1211-1274).  The callback parses the frame,
gates ready messages behind the session password when password protection
is on, answers ready with the metadata frame followed (after a 500 ms
delay) by the raw file content, and treats received as a completed
transfer: it marks the connection transfer-complete and re-arms the
session inactivity timer to a fresh 30 minutes.  Nothing in the handler
closes the WebSocket server or exits the process. -/

/-- The 30 minute session inactivity timeout of the sender
(src/unnamed/part_000 lines 1184 and 1261). -/
def inactivityTimeoutMs : Nat := 30 * 60 * 1000

/-- Grace delay before closing a connection that failed the password check
(src/unnamed/part_000 line 1222). -/
def closeGraceMs : Nat := 1000

/-- Delay between the metadata frame and the file content frame
(src/unnamed/part_000 line 1240). -/
def fileSendDelayMs : Nat := 500

/-- Timeout bound on tunnel creation (src/unnamed/part_000 line 942). -/
def tunnelCreationTimeoutMs : Nat := 30000

/-- Messages the sender can put on the wire from inside the handler. -/
inductive SenderMsg where
  | metadata (fileName : String) (fileSize : Nat)
  | fileData (content : String)
  | errorMsg (message : String)
  | ping
  deriving DecidableEq

/-- Per-connection state of the sender.  clientName and the
transferComplete flag are the local variables of the connection callback
(src/unnamed/part_000 lines 1206-1207); bytesSent is an observer counting
the payload bytes streamed so far on the connection (the source keeps no
such counter, which is exactly what the early-acknowledgment property is
about). -/
structure SenderConnState where
  clientName : String
  transferComplete : Bool
  bytesSent : Nat
  deriving DecidableEq

/-- Observable outcome of one execution of the sender message callback. -/
structure SenderStepResult where
  state : SenderConnState
  sent : List SenderMsg
  closeScheduled : Bool
  timerResetMs : Option Nat
  serverClosed : Bool
  deriving DecidableEq

/-- One execution of the sender message callback on an already parsed
frame value (src/unnamed/part_000 lines 1213-1273).  password is the
session password; it is only consulted when usePassword is true, matching
the source where password is null unless protection is enabled. -/
def senderHandleVal (usePassword : Bool) (password : String)
    (fileName content : String) (st : SenderConnState) (v : Json) :
    SenderStepResult :=
  if usePassword && typeIs v "ready" && !(fieldEqStr v "password" password) then
    { state := st
      sent := [SenderMsg.errorMsg "Invalid password"]
      closeScheduled := true
      timerResetMs := none
      serverClosed := false }
  else if typeIs v "ready" then
    { state :=
        { st with
          clientName := clientNameOf v
          bytesSent := st.bytesSent + content.length }
      sent := [SenderMsg.metadata fileName content.length,
               SenderMsg.fileData content]
      closeScheduled := false
      timerResetMs := none
      serverClosed := false }
  else if typeIs v "received" then
    { state := { st with transferComplete := true }
      sent := []
      closeScheduled := false
      timerResetMs := some inactivityTimeoutMs
      serverClosed := false }
  else
    { state := st
      sent := []
      closeScheduled := false
      timerResetMs := none
      serverClosed := false }

/-- One execution of the sender message callback on a raw frame: the
source wraps everything in try/catch around JSON.parse, and a parse
failure is silently ignored (src/unnamed/part_000 lines 1271-1273).
A frame parsing to null also lands in the catch, because data.type
throws on null. -/
def senderHandle (usePassword : Bool) (password : String)
    (fileName content : String) (st : SenderConnState) (raw : String) :
    SenderStepResult :=
  (jsonParse raw).elim
    { state := st, sent := [], closeScheduled := false
      timerResetMs := none, serverClosed := false }
    (fun v =>
      if v.isNull then
        { state := st, sent := [], closeScheduled := false
          timerResetMs := none, serverClosed := false }
      else senderHandleVal usePassword password fileName content st v)

/-! ## The wire form of the metadata frame

The sender builds the metadata frame with
JSON.stringify of an object literal with fields type, fileName, fileSize
(src/unnamed/part_000 lines 1233-1237).  escapeChar models the string
escaping JSON.stringify performs. -/

/-- Lower-case hexadecimal digit. -/
def hexChar (n : Nat) : Char :=
  if n < 10 then Char.ofNat (48 + n) else Char.ofNat (87 + n)

/-- Escaping of one character by JSON.stringify: quote, backslash, the
five short control escapes, a u00XX escape for the remaining control
characters, and every other character unchanged. -/
def escapeChar (c : Char) : List Char :=
  if c = '"' then ['\\', '"']
  else if c = '\\' then ['\\', '\\']
  else if c = '\x08' then ['\\', 'b']
  else if c = '\x09' then ['\\', 't']
  else if c = '\x0a' then ['\\', 'n']
  else if c = '\x0c' then ['\\', 'f']
  else if c = '\x0d' then ['\\', 'r']
  else if c.toNat < 32 then
    ['\\', 'u', '0', '0', hexChar (c.toNat / 16), hexChar (c.toNat % 16)]
  else [c]

/-- Escaping of a whole string by JSON.stringify. -/
def escapeChars (cs : List Char) : List Char := (cs.map escapeChar).flatten

/-- Characters of the metadata frame, exactly as JSON.stringify renders
the object literal of src/unnamed/part_000 lines 1233-1237. -/
def metadataFrameChars (name : List Char) (size : Nat) : List Char :=
  "\x7b\"type\":\"metadata\",\"fileName\":\"".data ++
    (escapeChars name ++
      ("\",\"fileSize\":".data ++ (natDecChars size ++ ['\x7d'])))

/-- The metadata frame as a wire string. -/
def metadataFrameStr (fileName : String) (fileSize : Nat) : String :=
  String.mk (metadataFrameChars fileName.data fileSize)

/-! ## The receiver: frame dispatch

Shallow embedding of the ws.on message callback of receiveFile
(src/src/server.js lines 190-270).  The callback runs JSON.parse inside
try; a metadata, error or ping frame is handled as control, any other
successfully parsed value falls off the end of the try block and is
silently dropped, and only a frame on which the try block throws (a parse
failure, or the data.type access on null) is written to the destination
file verbatim and acknowledged. -/

/-- What the receiver does with one incoming frame. -/
inductive RecvAction where
  /-- Record fileName and fileSize and keep waiting (metadata frame). -/
  | recordMeta
  /-- Error frame with message Invalid password: prompt and reconnect. -/
  | promptRetry
  /-- Any other error frame: report and exit. -/
  | fatalError
  /-- Ping frame: answer with a pong frame. -/
  | sendPong
  /-- Parsed as JSON but matching no control branch: silently dropped. -/
  | ignore
  /-- Treated as the binary payload: written verbatim to the destination
  file, then acknowledged with a received frame. -/
  | writeFile (data : String)
  deriving DecidableEq

/-- Dispatch of one incoming frame by the receiver. -/
def receiverDispatch (raw : String) : RecvAction :=
  (jsonParse raw).elim (RecvAction.writeFile raw)
    (fun v =>
      if v.isNull then RecvAction.writeFile raw
      else if typeIs v "metadata" then RecvAction.recordMeta
      else if typeIs v "error" then
        if fieldEqStr v "message" "Invalid password" then RecvAction.promptRetry
        else RecvAction.fatalError
      else if typeIs v "ping" then RecvAction.sendPong
      else RecvAction.ignore)

/-- The frames an authenticated ready handshake makes the sender put on
the wire, in order: the stringified metadata frame, then the raw file
content as one binary frame (src/unnamed/part_000 lines 1232-1243). -/
def senderWireFrames (fileName content : String) : List String :=
  [metadataFrameStr fileName content.length, content]

/-- The data written by one receiver action, if it is a write. -/
def RecvAction.writtenData : RecvAction → Option String
  | RecvAction.writeFile d => some d
  | _ => none

/-- First file written by a list of receiver actions; the receiver
acknowledges and closes right after its first write
(src/src/server.js lines 243-268). -/
def firstWritten : List RecvAction → Option String
  | [] => none
  | a :: rest => a.writtenData.elim (firstWritten rest) some

/-- Content delivered to the destination file by one send/receive run:
the receiver dispatches the frames the sender emits, in order, and the
first frame it classifies as binary is written verbatim.  none means the
run never writes a destination file. -/
def transferDelivered (fileName content : String) : Option String :=
  firstWritten ((senderWireFrames fileName content).map receiverDispatch)

/-! ## Tunnel failure handling of the sender

Shallow embedding of the catch block around tunnel creation
(src/unnamed/part_000 lines 961-970).  The block always prints the
fallback warning and carries on with local sharing; when forceTunnel was
requested it additionally prints a failure notice, but does not exit and
does not skip local sharing. -/

/-- Observable outcome of the tunnel-failure catch block. -/
structure TunnelFailureOutcome where
  warningShown : Bool
  forcedFailureNoticeShown : Bool
  hardFailure : Bool
  localSharingContinues : Bool
  deriving DecidableEq

/-- The catch block of src/unnamed/part_000 lines 961-970: warning and
fallback always, an extra notice when forceTunnel is set, never a process
exit, local sharing always continues. -/
def handleTunnelFailure (forceTunnel : Bool) : TunnelFailureOutcome :=
  { warningShown := true
    forcedFailureNoticeShown := forceTunnel
    hardFailure := false
    localSharingContinues := true }

/-! ## The Serveo tunnel manager

Shallow embedding of class ServeoTunnelManager
(src/unnamed/part_001 lines 61-356): activeTunnels is the key set of the
in-memory Map, registry the URL list persisted in active_tunnels.json. -/

/-- State of the tunnel manager. -/
structure TunnelState where
  activeTunnels : List String
  registry : List String
  deriving DecidableEq

/-- Result record of closeAllTunnels (src/unnamed/part_001 lines 319-323). -/
structure CloseAllResult where
  closed : Nat
  failed : Nat
  errors : List String
  deriving DecidableEq

/-- closeTunnel (src/unnamed/part_001 lines 285-310): kill the SSH
process if tracked, drop the URL from the in-memory map and from the
persisted registry; returns true (the success flag). -/
def closeTunnel (st : TunnelState) (url : String) : Bool × TunnelState :=
  (true,
    { activeTunnels := st.activeTunnels.filter (fun t => t ≠ url)
      registry := st.registry.filter (fun t => t ≠ url) })

/-- closeAllTunnels (src/unnamed/part_001 lines 316-355): close every
active tunnel (each close succeeds in the model, as closeTunnel never
throws), count them, then clear the persisted registry. -/
def closeAllTunnels (st : TunnelState) : CloseAllResult × TunnelState :=
  let urls := st.activeTunnels
  let st1 := urls.foldl (fun s u => (closeTunnel s u).2) st
  ({ closed := urls.length, failed := 0, errors := [] },
    { st1 with registry := [] })

/-! ## The persisted tunnel registry

registerTunnel (src/utils/tunnelManager.js lines 76-86) and the identical
in-line registration of createServeoTunnel
(src/unnamed/part_001 lines 165-170): load the registry, and only when
the URL is not yet present push it and save. -/

/-- Register a tunnel URL in the persisted registry. -/
def registerTunnel (registry : List String) (url : String) : List String :=
  if url ∈ registry then registry else registry ++ [url]

/-! ## Collision-free destination naming of the receiver

Shallow embedding of src/src/server.js lines 131-141.  existing is the
set of file names already present in the destination directory (the
existsSync checks); candidate 0 is the requested name itself, candidate
n adds the counter before the extension of the original name.  The source
loop is unbounded; findFreeAux carries fuel to stay structural, and
resolvePath supplies enough fuel for the loop to reach a free name. -/

/-- Split a file name at the last dot, as path.extname and path.basename
do: base and extension concatenate back to the input; a name without a
dot, or with its only dot in leading position, has an empty extension. -/
def splitExtAux : List Char → Option (List Char × List Char)
  | [] => none
  | c :: cs =>
    (splitExtAux cs).elim
      (if c = '.' then some ([], '.' :: cs) else none)
      (fun p => some (c :: p.1, p.2))

/-- Split of a file name into base and extension. -/
def splitExt (s : String) : String × String :=
  (splitExtAux s.data).elim (s, "")
    (fun p => if p.1 = [] then (s, "") else (String.mk p.1, String.mk p.2))

/-- Candidate destination names: the requested name, then
base_1.ext, base_2.ext and so on (src/src/server.js line 139). -/
def candName (fileName base ext : String) : Nat → String
  | 0 => fileName
  | n + 1 => base ++ "_" ++ String.mk (natDecChars (n + 1)) ++ ext

/-- The collision loop of src/src/server.js lines 134-141, with fuel:
starting at candidate index i, return the first candidate not already
present. -/
def findFreeAux (existing : List String) (fileName base ext : String) :
    Nat → Nat → Option String
  | 0, _ => none
  | fuel + 1, i =>
    if candName fileName base ext i ∈ existing then
      findFreeAux existing fileName base ext fuel (i + 1)
    else some (candName fileName base ext i)

/-- Destination name selection of the receiver: the first free candidate.
One unit of fuel per existing file plus one is always enough, because the
candidates are pairwise distinct. -/
def resolvePath (existing : List String) (fileName : String) : Option String :=
  findFreeAux existing fileName (splitExt fileName).1 (splitExt fileName).2
    (existing.length + 1) 0

/-! # Theorems

General-purpose lemmas first, then one theorem per verified claim. -/

/-! ## Characters and decimal digits -/

theorem char_toNat_inj {a b : Char} (h : a.toNat = b.toNat) : a = b := by
  apply Char.eq_of_val_eq
  apply UInt32.eq_of_toBitVec_eq
  have h2 : a.val.toNat = b.val.toNat := h
  exact BitVec.eq_of_toNat_eq (by simpa [UInt32.toNat] using h2)

theorem digit_char_toNat : ∀ d < 10, (Char.ofNat (48 + d)).toNat = 48 + d := by decide

theorem digit_char_isDigit : ∀ d < 10, isDigitChar (Char.ofNat (48 + d)) = true := by decide

theorem natDecCharsAux_ne_nil (fuel n : Nat) : natDecCharsAux fuel n ≠ [] := by
  cases fuel with
  | zero => simp [natDecCharsAux]
  | succ f =>
    by_cases h : n < 10 <;> simp [natDecCharsAux, h]

theorem natDecChars_ne_nil (n : Nat) : natDecChars n ≠ [] :=
  natDecCharsAux_ne_nil n n

theorem natDecCharsAux_digits (fuel : Nat) :
    ∀ n, n ≤ fuel → ∀ c ∈ natDecCharsAux fuel n, isDigitChar c = true := by
  induction fuel with
  | zero =>
    intro n hn c hc
    simp [natDecCharsAux] at hc
    subst hc
    exact digit_char_isDigit (n % 10) (Nat.mod_lt _ (by omega))
  | succ f ih =>
    intro n hn c hc
    by_cases h : n < 10
    · simp [natDecCharsAux, h] at hc
      subst hc
      exact digit_char_isDigit n h
    · simp only [natDecCharsAux, if_neg h, List.mem_append, List.mem_singleton] at hc
      rcases hc with hc | hc
      · exact ih (n / 10) (by omega) c hc
      · subst hc
        exact digit_char_isDigit (n % 10) (Nat.mod_lt _ (by omega))

theorem natDecChars_digits (n : Nat) : ∀ c ∈ natDecChars n, isDigitChar c = true :=
  natDecCharsAux_digits n n (Nat.le_refl n)

theorem ofDecChars_append_one (xs : List Char) (c : Char) :
    ofDecChars (xs ++ [c]) = 10 * ofDecChars xs + (c.toNat - 48) := by
  simp [ofDecChars, List.foldl_append]

theorem ofDecChars_natDecCharsAux (fuel : Nat) :
    ∀ n, n ≤ fuel → ofDecChars (natDecCharsAux fuel n) = n := by
  induction fuel with
  | zero =>
    intro n hn
    have hn0 : n = 0 := by omega
    subst hn0
    simp [natDecCharsAux, ofDecChars]
  | succ f ih =>
    intro n hn
    by_cases h : n < 10
    · simp only [natDecCharsAux, if_pos h, ofDecChars, List.foldl]
      rw [digit_char_toNat n h]
      omega
    · have hdiv : n / 10 ≤ f := by
        have h1 : n / 10 < n := Nat.div_lt_self (by omega) (by omega)
        have h2 : n / 10 ≤ (f + 1) / 10 := Nat.div_le_div_right hn
        omega
      simp only [natDecCharsAux, if_neg h]
      rw [ofDecChars_append_one, ih (n / 10) hdiv,
        digit_char_toNat (n % 10) (Nat.mod_lt _ (by omega))]
      omega

theorem ofDecChars_natDecChars (n : Nat) : ofDecChars (natDecChars n) = n :=
  ofDecChars_natDecCharsAux n n (Nat.le_refl n)

theorem natDecChars_injective : Function.Injective natDecChars := by
  intro a b h
  have := congrArg ofDecChars h
  rwa [ofDecChars_natDecChars, ofDecChars_natDecChars] at this

theorem natDecCharsAux_head_zero (fuel : Nat) :
    ∀ n ds, n ≤ fuel → natDecCharsAux fuel n = '0' :: ds → n = 0 ∧ ds = [] := by
  induction fuel with
  | zero =>
    intro n ds hn heq
    have hn0 : n = 0 := by omega
    subst hn0
    simp [natDecCharsAux] at heq
    exact ⟨rfl, heq⟩
  | succ f ih =>
    intro n ds hn heq
    by_cases h : n < 10
    · simp only [natDecCharsAux, if_pos h] at heq
      have hc : Char.ofNat (48 + n) = '0' := by
        simpa using congrArg (fun l => l.headI) heq
      have hn48 : (48 : Nat) + n = 48 := by
        have := congrArg Char.toNat hc
        rwa [digit_char_toNat n h] at this
      constructor
      · omega
      · simpa [show n = 0 by omega] using congrArg (fun l => l.tail) heq
    · simp only [natDecCharsAux, if_neg h] at heq
      obtain ⟨d, ds2, hds⟩ : ∃ d ds2, natDecCharsAux f (n / 10) = d :: ds2 := by
        cases heq2 : natDecCharsAux f (n / 10) with
        | nil => exact absurd heq2 (natDecCharsAux_ne_nil f (n / 10))
        | cons d ds2 => exact ⟨d, ds2, rfl⟩
      rw [hds] at heq
      simp only [List.cons_append, List.cons.injEq] at heq
      have hdiv : n / 10 ≤ f := by
        have h1 : n / 10 < n := Nat.div_lt_self (by omega) (by omega)
        have h2 : n / 10 ≤ (f + 1) / 10 := Nat.div_le_div_right hn
        omega
      have := ih (n / 10) ds2 hdiv (by rw [hds, heq.1])
      have hcontra : n / 10 ≠ 0 := by omega
      exact absurd this.1 hcontra

theorem natDecChars_head_zero (n : Nat) (ds : List Char)
    (h : natDecChars n = '0' :: ds) : n = 0 ∧ ds = [] :=
  natDecCharsAux_head_zero n n ds (Nat.le_refl n) h

/-! ## takeWhile and dropWhile over a satisfying block -/

theorem takeWhile_block (p : Char → Bool) (xs : List Char) (y : Char)
    (ys : List Char) (hxs : ∀ x ∈ xs, p x = true) (hy : p y = false) :
    (xs ++ y :: ys).takeWhile p = xs := by
  induction xs with
  | nil => simp [List.takeWhile, hy]
  | cons a as ih =>
    simp only [List.cons_append, List.takeWhile]
    rw [hxs a (by simp)]
    simp only [List.cons.injEq, true_and]
    exact ih (fun x hx => hxs x (by simp [hx]))

theorem dropWhile_block (p : Char → Bool) (xs : List Char) (y : Char)
    (ys : List Char) (hxs : ∀ x ∈ xs, p x = true) (hy : p y = false) :
    (xs ++ y :: ys).dropWhile p = y :: ys := by
  induction xs with
  | nil => simp [List.dropWhile, hy]
  | cons a as ih =>
    simp only [List.cons_append, List.dropWhile]
    rw [hxs a (by simp)]
    exact ih (fun x hx => hxs x (by simp [hx]))

/-! ## Small step lemmas for the combinator helpers -/

theorem headIs_cons_ne (c x : Char) (rest : List Char) (h : x ≠ c) :
    headIs c (x :: rest) = none := by
  simp [headIs, h]

theorem headIs_cons_eq (c : Char) (rest : List Char) :
    headIs c (c :: rest) = some rest := by
  simp [headIs]

/-! ## Parsing back the decimal rendering of a number -/

theorem parseExpPart_brace (r : List Char) :
    parseExpPart ('\x7d' :: r) = some ([], '\x7d' :: r) := by
  simp only [parseExpPart,
    headIs_cons_ne 'e' '\x7d' r (by decide),
    headIs_cons_ne 'E' '\x7d' r (by decide), Option.elim_none]

theorem parseFracPart_brace (r : List Char) :
    parseFracPart ('\x7d' :: r) = some ([], '\x7d' :: r) := by
  simp only [parseFracPart,
    headIs_cons_ne '.' '\x7d' r (by decide), Option.elim_none,
    parseExpPart_brace]

theorem parseNumberPos_natDec (n : Nat) (r : List Char) :
    parseNumberPos (natDecChars n ++ '\x7d' :: r) =
      some (natDecChars n, '\x7d' :: r) := by
  obtain ⟨d, ds, hds⟩ : ∃ d ds, natDecChars n = d :: ds := by
    cases h : natDecChars n with
    | nil => exact absurd h (natDecChars_ne_nil n)
    | cons d ds => exact ⟨d, ds, rfl⟩
  rw [hds]
  by_cases h0 : d = '0'
  · subst h0
    obtain ⟨hn0, hds0⟩ := natDecChars_head_zero n ds hds
    subst hds0
    simp [parseNumberPos, uncons, parseFracPart_brace]
  · have hdig : isDigitChar d = true :=
      natDecChars_digits n d (by rw [hds]; simp)
    have hd_all : ∀ x ∈ ds, isDigitChar x = true := by
      intro x hx
      exact natDecChars_digits n x (by rw [hds]; simp [hx])
    have hbrace : isDigitChar '\x7d' = false := by decide
    simp only [List.cons_append, parseNumberPos, uncons, Option.some_bind,
      if_neg h0, if_pos hdig]
    rw [takeWhile_block isDigitChar ds '\x7d' r hd_all hbrace,
      dropWhile_block isDigitChar ds '\x7d' r hd_all hbrace,
      parseFracPart_brace]
    simp

theorem parseNumber_natDec (n : Nat) (r : List Char) :
    parseNumber (natDecChars n ++ '\x7d' :: r) =
      some (natDecChars n, '\x7d' :: r) := by
  obtain ⟨d, ds, hds⟩ : ∃ d ds, natDecChars n = d :: ds := by
    cases h : natDecChars n with
    | nil => exact absurd h (natDecChars_ne_nil n)
    | cons d ds => exact ⟨d, ds, rfl⟩
  have hdig : isDigitChar d = true :=
    natDecChars_digits n d (by rw [hds]; simp)
  have hminus : d ≠ '-' := by
    intro hd
    rw [hd] at hdig
    simp [isDigitChar] at hdig
  have hpos := parseNumberPos_natDec n r
  rw [hds] at hpos ⊢
  simp only [List.cons_append, parseNumber, uncons, Option.some_bind,
    if_neg hminus]
  simpa using hpos

/-! ## Parsing back an escaped JSON string -/

theorem hexVal_hexChar : ∀ m < 16, hexVal (hexChar m) = some m := by decide

theorem char_ofNat_toNat_lt32 (c : Char) (h : c.toNat < 32) :
    Char.ofNat c.toNat = c := by
  have hall : ∀ n < 32, (Char.ofNat n).toNat = n := by decide
  exact char_toNat_inj (hall c.toNat h)

theorem psb_step_quote (g : Nat) (rest : List Char) :
    parseStrBody (g + 1) ('"' :: rest) = some ([], rest) := by
  simp [parseStrBody]

theorem psb_step_esc (g : Nat) (e u : Char) (tail : List Char)
    (he : e ≠ 'u') (hu : unescapeChar e = some u) :
    parseStrBody (g + 1) ('\\' :: e :: tail) =
      (parseStrBody g tail).map fun q => (u :: q.1, q.2) := by
  simp [parseStrBody, parseEsc, show ('\\' : Char) ≠ '"' from by decide,
    he, hu]

theorem psb_step_hex (g : Nat) (a b : Char) (tail : List Char)
    (va vb : Nat) (ha : hexVal a = some va) (hb : hexVal b = some vb) :
    parseStrBody (g + 1) ('\\' :: 'u' :: '0' :: '0' :: a :: b :: tail) =
      (parseStrBody g tail).map
        fun q => (Char.ofNat (16 * va + vb) :: q.1, q.2) := by
  simp [parseStrBody, parseEsc, parseHex4,
    show ('\\' : Char) ≠ '"' from by decide,
    show hexVal '0' = some 0 from rfl, ha, hb]

theorem psb_step_plain (g : Nat) (c : Char) (tail : List Char)
    (h1 : c ≠ '"') (h2 : c ≠ '\\') (h8 : ¬c.toNat < 32) :
    parseStrBody (g + 1) (c :: tail) =
      (parseStrBody g tail).map fun q => (c :: q.1, q.2) := by
  simp [parseStrBody, h1, h2, h8]

theorem parseStrBody_escape (s : List Char) :
    ∀ fuel rest, s.length + 1 ≤ fuel →
      parseStrBody fuel (escapeChars s ++ '"' :: rest) = some (s, rest) := by
  induction s with
  | nil =>
    intro fuel rest hf
    obtain ⟨g, rfl⟩ : ∃ g, fuel = g + 1 := ⟨fuel - 1, by omega⟩
    show parseStrBody (g + 1) ('"' :: rest) = some ([], rest)
    exact psb_step_quote g rest
  | cons c cs ih =>
    intro fuel rest hf
    obtain ⟨g, rfl⟩ : ∃ g, fuel = g + 1 := ⟨fuel - 1, by omega⟩
    have hg : cs.length + 1 ≤ g := by
      simp only [List.length_cons] at hf
      omega
    have hstep : escapeChars (c :: cs) = escapeChar c ++ escapeChars cs := by
      simp [escapeChars]
    rw [hstep, List.append_assoc]
    by_cases h1 : c = '"'
    · subst h1
      rw [show escapeChar '"' = ['\\', '"'] from rfl]
      simp only [List.cons_append, List.nil_append]
      rw [psb_step_esc g '"' '"' _ (by decide) rfl, ih g rest hg]
      rfl
    · by_cases h2 : c = '\\'
      · subst h2
        rw [show escapeChar '\\' = ['\\', '\\'] from rfl]
        simp only [List.cons_append, List.nil_append]
        rw [psb_step_esc g '\\' '\\' _ (by decide) rfl, ih g rest hg]
        rfl
      · by_cases h3 : c = '\x08'
        · subst h3
          rw [show escapeChar '\x08' = ['\\', 'b'] from rfl]
          simp only [List.cons_append, List.nil_append]
          rw [psb_step_esc g 'b' '\x08' _ (by decide) rfl, ih g rest hg]
          rfl
        · by_cases h4 : c = '\x09'
          · subst h4
            rw [show escapeChar '\x09' = ['\\', 't'] from rfl]
            simp only [List.cons_append, List.nil_append]
            rw [psb_step_esc g 't' '\x09' _ (by decide) rfl, ih g rest hg]
            rfl
          · by_cases h5 : c = '\x0a'
            · subst h5
              rw [show escapeChar '\x0a' = ['\\', 'n'] from rfl]
              simp only [List.cons_append, List.nil_append]
              rw [psb_step_esc g 'n' '\x0a' _ (by decide) rfl, ih g rest hg]
              rfl
            · by_cases h6 : c = '\x0c'
              · subst h6
                rw [show escapeChar '\x0c' = ['\\', 'f'] from rfl]
                simp only [List.cons_append, List.nil_append]
                rw [psb_step_esc g 'f' '\x0c' _ (by decide) rfl, ih g rest hg]
                rfl
              · by_cases h7 : c = '\x0d'
                · subst h7
                  rw [show escapeChar '\x0d' = ['\\', 'r'] from rfl]
                  simp only [List.cons_append, List.nil_append]
                  rw [psb_step_esc g 'r' '\x0d' _ (by decide) rfl,
                    ih g rest hg]
                  rfl
                · by_cases h8 : c.toNat < 32
                  · have hdiv : c.toNat / 16 < 16 := by omega
                    have hmod : c.toNat % 16 < 16 := Nat.mod_lt _ (by omega)
                    have hesc : escapeChar c =
                        ['\\', 'u', '0', '0', hexChar (c.toNat / 16),
                          hexChar (c.toNat % 16)] := by
                      simp [escapeChar, h1, h2, h3, h4, h5, h6, h7, h8]
                    rw [hesc]
                    simp only [List.cons_append, List.nil_append]
                    rw [psb_step_hex g (hexChar (c.toNat / 16))
                      (hexChar (c.toNat % 16)) _ (c.toNat / 16) (c.toNat % 16)
                      (hexVal_hexChar _ hdiv) (hexVal_hexChar _ hmod),
                      ih g rest hg]
                    have hval : 16 * (c.toNat / 16) + c.toNat % 16 =
                        c.toNat := by omega
                    rw [hval, char_ofNat_toNat_lt32 c h8]
                    rfl
                  · have hesc : escapeChar c = [c] := by
                      simp [escapeChar, h1, h2, h3, h4, h5, h6, h7, h8]
                    rw [hesc]
                    simp only [List.cons_append, List.nil_append]
                    rw [psb_step_plain g c _ h1 h2 h8, ih g rest hg]
                    rfl

theorem escapeChar_length_pos (c : Char) : 1 ≤ (escapeChar c).length := by
  unfold escapeChar
  repeat' split
  all_goals simp

theorem escapeChars_length (s : List Char) :
    s.length ≤ (escapeChars s).length := by
  induction s with
  | nil => simp [escapeChars]
  | cons c cs ih =>
    have hstep : escapeChars (c :: cs) = escapeChar c ++ escapeChars cs := by
      simp [escapeChars]
    rw [hstep]
    have := escapeChar_length_pos c
    simp only [List.length_append, List.length_cons]
    omega

theorem parseStr_escape (s rest : List Char) :
    parseStr (escapeChars s ++ '"' :: rest) = some (s, rest) := by
  apply parseStrBody_escape
  have h1 := escapeChars_length s
  simp only [List.length_append, List.length_cons]
  omega

/-! ## Parsing the metadata frame

The frame the sender emits with JSON.stringify always parses back as the
corresponding object, whatever the file name and size.  The chain below
follows the parser through the three fields of the frame. -/

theorem parseStr_lit (ks rest : List Char) (hks : escapeChars ks = ks) :
    parseStr (ks ++ '"' :: rest) = some (ks, rest) := by
  rw [show ks ++ '"' :: rest = escapeChars ks ++ '"' :: rest by rw [hks]]
  exact parseStr_escape ks rest

theorem parseValue_natDec (g size : Nat) (r : List Char) :
    parseValue (g + 1) (natDecChars size ++ '\x7d' :: r) =
      some (Json.num (natDecChars size), '\x7d' :: r) := by
  obtain ⟨d, ds, hds⟩ : ∃ d ds, natDecChars size = d :: ds := by
    cases h : natDecChars size with
    | nil => exact absurd h (natDecChars_ne_nil size)
    | cons d ds => exact ⟨d, ds, rfl⟩
  have hdig : isDigitChar d = true :=
    natDecChars_digits size d (by rw [hds]; simp)
  have hne : ∀ x : Char, isDigitChar x = false → d ≠ x := by
    intro x hx hdx
    rw [hdx] at hdig
    rw [hdig] at hx
    exact Bool.noConfusion hx
  have hws : isJsonWs d = false := by
    simp [isJsonWs, hne ' ' (by decide), hne '\x09' (by decide),
      hne '\x0a' (by decide), hne '\x0d' (by decide)]
  rw [hds, List.cons_append]
  have hskip : skipWs (d :: (ds ++ '\x7d' :: r)) = d :: (ds ++ '\x7d' :: r) := by
    simp [skipWs, List.dropWhile_cons, hws]
  simp only [parseValue, hskip, uncons, Option.some_bind]
  rw [if_neg (hne '"' (by decide)), if_neg (hne '\x7b' (by decide)),
    if_neg (hne '[' (by decide)), if_neg (hne 'n' (by decide)),
    if_neg (hne 't' (by decide)), if_neg (hne 'f' (by decide)),
    if_pos (by simp [hdig])]
  rw [show d :: (ds ++ '\x7d' :: r) = (d :: ds) ++ '\x7d' :: r from rfl,
    ← hds, parseNumber_natDec]
  rfl

theorem skipWs_quote (t : List Char) : skipWs ('"' :: t) = '"' :: t := rfl

theorem skipWs_colon (t : List Char) : skipWs (':' :: t) = ':' :: t := rfl

theorem skipWs_comma (t : List Char) : skipWs (',' :: t) = ',' :: t := rfl

theorem skipWs_cbrace (t : List Char) : skipWs ('\x7d' :: t) = '\x7d' :: t := rfl

theorem skipWs_obrace (t : List Char) : skipWs ('\x7b' :: t) = '\x7b' :: t := rfl

theorem headIs_quote_some (t : List Char) : headIs '"' ('"' :: t) = some t := rfl

theorem headIs_colon_some (t : List Char) : headIs ':' (':' :: t) = some t := rfl

theorem headIs_comma_some (t : List Char) : headIs ',' (',' :: t) = some t := rfl

theorem headIs_cbrace_some (t : List Char) :
    headIs '\x7d' ('\x7d' :: t) = some t := rfl

theorem headIs_cbrace_of_quote (t : List Char) :
    headIs '\x7d' ('"' :: t) = none := rfl

theorem headIs_comma_of_cbrace (t : List Char) :
    headIs ',' ('\x7d' :: t) = none := rfl

theorem uncons_cons (c : Char) (t : List Char) : uncons (c :: t) = some (c, t) := rfl

/-- Parsing a quoted escaped string as one JSON value. -/
theorem parseValue_str (g : Nat) (s rest : List Char) :
    parseValue (g + 1) ('"' :: (escapeChars s ++ '"' :: rest)) =
      some (Json.str (String.mk s), rest) := by
  rw [parseValue.eq_2]
  simp only [skipWs_quote, uncons_cons, Option.some_bind, if_true]
  rw [parseStr_escape]
  rfl

/-- The third field of the metadata frame: fileSize and the closing brace. -/
theorem objFields_fileSize (f size : Nat) :
    parseObjFields (f + 2)
        ('"' :: 'f' :: 'i' :: 'l' :: 'e' :: 'S' :: 'i' :: 'z' :: 'e' :: '"' ::
          ':' :: (natDecChars size ++ ['\x7d'])) =
      some ([("fileSize", Json.num (natDecChars size))], []) := by
  rw [show f + 2 = (f + 1) + 1 from rfl, parseObjFields.eq_2]
  simp only [skipWs_quote, headIs_quote_some, Option.some_bind]
  rw [show ('f' :: 'i' :: 'l' :: 'e' :: 'S' :: 'i' :: 'z' :: 'e' :: '"' ::
      ':' :: (natDecChars size ++ ['\x7d'])) =
    ['f', 'i', 'l', 'e', 'S', 'i', 'z', 'e'] ++ '"' ::
      (':' :: (natDecChars size ++ ['\x7d'])) from rfl]
  rw [parseStr_lit _ _ rfl]
  simp only [Option.some_bind, skipWs_colon, headIs_colon_some]
  rw [show natDecChars size ++ ['\x7d'] =
    natDecChars size ++ '\x7d' :: [] from rfl]
  rw [parseValue_natDec f size []]
  simp only [Option.some_bind, skipWs_cbrace, headIs_comma_of_cbrace,
    Option.elim_none, headIs_cbrace_some, Option.map_some']

/-- The second and third fields of the metadata frame. -/
theorem objFields_fileName (f size : Nat) (name : List Char) :
    parseObjFields (f + 3)
        ('"' :: 'f' :: 'i' :: 'l' :: 'e' :: 'N' :: 'a' :: 'm' :: 'e' :: '"' ::
          ':' :: '"' ::
          (escapeChars name ++ '"' :: ',' ::
            ('"' :: 'f' :: 'i' :: 'l' :: 'e' :: 'S' :: 'i' :: 'z' :: 'e' ::
              '"' :: ':' :: (natDecChars size ++ ['\x7d'])))) =
      some ([("fileName", Json.str (String.mk name)),
             ("fileSize", Json.num (natDecChars size))], []) := by
  rw [show f + 3 = (f + 2) + 1 from rfl, parseObjFields.eq_2]
  simp only [skipWs_quote, headIs_quote_some, Option.some_bind]
  rw [show ('f' :: 'i' :: 'l' :: 'e' :: 'N' :: 'a' :: 'm' :: 'e' :: '"' ::
      ':' :: '"' :: (escapeChars name ++ '"' :: ',' ::
        ('"' :: 'f' :: 'i' :: 'l' :: 'e' :: 'S' :: 'i' :: 'z' :: 'e' :: '"' ::
          ':' :: (natDecChars size ++ ['\x7d'])))) =
    ['f', 'i', 'l', 'e', 'N', 'a', 'm', 'e'] ++ '"' ::
      (':' :: '"' :: (escapeChars name ++ '"' :: ',' ::
        ('"' :: 'f' :: 'i' :: 'l' :: 'e' :: 'S' :: 'i' :: 'z' :: 'e' :: '"' ::
          ':' :: (natDecChars size ++ ['\x7d'])))) from rfl]
  rw [parseStr_lit _ _ rfl]
  simp only [Option.some_bind, skipWs_colon, headIs_colon_some]
  rw [show (escapeChars name ++ '"' :: ',' ::
      ('"' :: 'f' :: 'i' :: 'l' :: 'e' :: 'S' :: 'i' :: 'z' :: 'e' :: '"' ::
        ':' :: (natDecChars size ++ ['\x7d']))) =
    (escapeChars name ++ '"' ::
      (',' :: ('"' :: 'f' :: 'i' :: 'l' :: 'e' :: 'S' :: 'i' :: 'z' :: 'e' ::
        '"' :: ':' :: (natDecChars size ++ ['\x7d'])))) from rfl]
  rw [show f + 2 = (f + 1) + 1 from rfl, parseValue_str (f + 1) name]
  simp only [Option.some_bind, skipWs_comma, headIs_comma_some,
    Option.elim_some]
  rw [show f + 1 + 1 = f + 2 from rfl, objFields_fileSize f size]
  rfl

/-- All three fields of the metadata frame. -/
theorem objFields_metadata (f size : Nat) (name : List Char) :
    parseObjFields (f + 4)
        ('"' :: 't' :: 'y' :: 'p' :: 'e' :: '"' :: ':' :: '"' :: 'm' :: 'e' ::
          't' :: 'a' :: 'd' :: 'a' :: 't' :: 'a' :: '"' :: ',' ::
          ('"' :: 'f' :: 'i' :: 'l' :: 'e' :: 'N' :: 'a' :: 'm' :: 'e' ::
            '"' :: ':' :: '"' ::
            (escapeChars name ++ '"' :: ',' ::
              ('"' :: 'f' :: 'i' :: 'l' :: 'e' :: 'S' :: 'i' :: 'z' :: 'e' ::
                '"' :: ':' :: (natDecChars size ++ ['\x7d']))))) =
      some ([("type", Json.str "metadata"),
             ("fileName", Json.str (String.mk name)),
             ("fileSize", Json.num (natDecChars size))], []) := by
  rw [show f + 4 = (f + 3) + 1 from rfl, parseObjFields.eq_2]
  simp only [skipWs_quote, headIs_quote_some, Option.some_bind]
  rw [show ('t' :: 'y' :: 'p' :: 'e' :: '"' :: ':' :: '"' :: 'm' :: 'e' ::
      't' :: 'a' :: 'd' :: 'a' :: 't' :: 'a' :: '"' :: ',' ::
      ('"' :: 'f' :: 'i' :: 'l' :: 'e' :: 'N' :: 'a' :: 'm' :: 'e' :: '"' ::
        ':' :: '"' ::
        (escapeChars name ++ '"' :: ',' ::
          ('"' :: 'f' :: 'i' :: 'l' :: 'e' :: 'S' :: 'i' :: 'z' :: 'e' ::
            '"' :: ':' :: (natDecChars size ++ ['\x7d']))))) =
    ['t', 'y', 'p', 'e'] ++ '"' ::
      (':' :: '"' :: 'm' :: 'e' :: 't' :: 'a' :: 'd' :: 'a' :: 't' :: 'a' ::
        '"' :: ',' ::
        ('"' :: 'f' :: 'i' :: 'l' :: 'e' :: 'N' :: 'a' :: 'm' :: 'e' :: '"' ::
          ':' :: '"' ::
          (escapeChars name ++ '"' :: ',' ::
            ('"' :: 'f' :: 'i' :: 'l' :: 'e' :: 'S' :: 'i' :: 'z' :: 'e' ::
              '"' :: ':' :: (natDecChars size ++ ['\x7d']))))) from rfl]
  rw [parseStr_lit _ _ rfl]
  simp only [Option.some_bind, skipWs_colon, headIs_colon_some]
  rw [show ('"' :: 'm' :: 'e' :: 't' :: 'a' :: 'd' :: 'a' :: 't' :: 'a' ::
      '"' :: ',' ::
      ('"' :: 'f' :: 'i' :: 'l' :: 'e' :: 'N' :: 'a' :: 'm' :: 'e' :: '"' ::
        ':' :: '"' ::
        (escapeChars name ++ '"' :: ',' ::
          ('"' :: 'f' :: 'i' :: 'l' :: 'e' :: 'S' :: 'i' :: 'z' :: 'e' ::
            '"' :: ':' :: (natDecChars size ++ ['\x7d']))))) =
    '"' :: (escapeChars ['m', 'e', 't', 'a', 'd', 'a', 't', 'a'] ++ '"' ::
      (',' ::
        ('"' :: 'f' :: 'i' :: 'l' :: 'e' :: 'N' :: 'a' :: 'm' :: 'e' :: '"' ::
          ':' :: '"' ::
          (escapeChars name ++ '"' :: ',' ::
            ('"' :: 'f' :: 'i' :: 'l' :: 'e' :: 'S' :: 'i' :: 'z' :: 'e' ::
              '"' :: ':' :: (natDecChars size ++ ['\x7d'])))))) from rfl]
  rw [show f + 3 = (f + 2) + 1 from rfl, parseValue_str (f + 2)]
  simp only [Option.some_bind, skipWs_comma, headIs_comma_some,
    Option.elim_some]
  rw [show f + 2 + 1 = f + 3 from rfl, objFields_fileName f size name]
  rfl

/-- The metadata frame parses as the expected three-field object, for every
file name and size. -/
theorem parseValue_metadataFrame (f size : Nat) (name : List Char) :
    parseValue (f + 5) (metadataFrameChars name size) =
      some (Json.obj [("type", Json.str "metadata"),
                      ("fileName", Json.str (String.mk name)),
                      ("fileSize", Json.num (natDecChars size))], []) := by
  rw [show metadataFrameChars name size =
    '\x7b' :: ('"' :: 't' :: 'y' :: 'p' :: 'e' :: '"' :: ':' :: '"' :: 'm' ::
      'e' :: 't' :: 'a' :: 'd' :: 'a' :: 't' :: 'a' :: '"' :: ',' ::
      ('"' :: 'f' :: 'i' :: 'l' :: 'e' :: 'N' :: 'a' :: 'm' :: 'e' :: '"' ::
        ':' :: '"' ::
        (escapeChars name ++ '"' :: ',' ::
          ('"' :: 'f' :: 'i' :: 'l' :: 'e' :: 'S' :: 'i' :: 'z' :: 'e' ::
            '"' :: ':' :: (natDecChars size ++ ['\x7d']))))) from rfl]
  rw [show f + 5 = (f + 4) + 1 from rfl, parseValue.eq_2]
  simp only [skipWs_obrace, uncons_cons, Option.some_bind, if_true]
  rw [skipWs_quote, headIs_cbrace_of_quote]
  simp only [Option.elim_none]
  rw [objFields_metadata f size name]
  rfl

/-- Length of the metadata frame is at least its concrete skeleton. -/
theorem metadataFrameChars_length (name : List Char) (size : Nat) :
    5 ≤ (metadataFrameChars name size).length + 1 := by
  simp only [metadataFrameChars, List.length_append]
  rw [show ("\x7b\"type\":\"metadata\",\"fileName\":\"".data).length = 31
    from rfl]
  omega

/-- JSON.parse on the metadata frame, as a wire string. -/
theorem jsonParse_metadataFrame (fileName : String) (size : Nat) :
    jsonParse (metadataFrameStr fileName size) =
      some (Json.obj [("type", Json.str "metadata"),
                      ("fileName", Json.str (String.mk fileName.data)),
                      ("fileSize", Json.num (natDecChars size))]) := by
  have hlen := metadataFrameChars_length fileName.data size
  obtain ⟨k, hk⟩ : ∃ k,
      (metadataFrameChars fileName.data size).length + 1 = k + 5 :=
    ⟨(metadataFrameChars fileName.data size).length - 4, by omega⟩
  show (parseValue ((metadataFrameStr fileName size).data.length + 1)
      (metadataFrameStr fileName size).data).bind _ = _
  rw [show (metadataFrameStr fileName size).data =
    metadataFrameChars fileName.data size from rfl]
  rw [hk, parseValue_metadataFrame k size fileName.data]
  rfl

/-- The receiver classifies the metadata frame as a control frame and never
writes it to the destination file. -/
theorem receiverDispatch_metadataFrame (fileName : String) (size : Nat) :
    receiverDispatch (metadataFrameStr fileName size) =
      RecvAction.recordMeta := by
  rw [receiverDispatch, jsonParse_metadataFrame]
  simp only [Option.elim_some]
  rw [if_neg (by simp [Json.isNull])]
  rw [if_pos (by
    simp [typeIs, jsonField, lookupLast, Json.asStr,
      show ("fileSize" : String) ≠ "type" from by decide,
      show ("fileName" : String) ≠ "type" from by decide])]

/-! ## The sender message handler -/

/-- A frame has a single type field value, so it tests positive for at
most one type tag. -/
theorem typeIs_unique (v : Json) (s t : String) (h : typeIs v s = true)
    (hst : s ≠ t) : typeIs v t = false := by
  have hb : (jsonField v "type").bind Json.asStr = some s := by
    simpa [typeIs] using h
  simp [typeIs, hb, hst]

/-- The received branch of the sender message callback, in one equation:
mark the transfer complete, send nothing, re-arm the inactivity timer,
leave the server running.  The callback has no access to a byte counter,
so the state update does not depend on bytesSent at all. -/
theorem senderHandleVal_received (usePassword : Bool)
    (password fileName content : String) (st : SenderConnState) (v : Json)
    (h : typeIs v "received" = true) :
    senderHandleVal usePassword password fileName content st v =
      { state := { st with transferComplete := true }
        sent := []
        closeScheduled := false
        timerResetMs := some inactivityTimeoutMs
        serverClosed := false } := by
  have hready : typeIs v "ready" = false :=
    typeIs_unique v "received" "ready" h (by decide)
  unfold senderHandleVal
  rw [if_neg (by simp [hready]), if_neg (by simp [hready]), if_pos h]

/-- C2: for a session with password P, a ready handshake whose password
field is not exactly P makes the sender answer with the single frame
error.Invalid password (and so no metadata frame), scheduling the
connection close; a ready handshake carrying exactly P makes the sender
answer with the metadata frame followed by the file content frame. -/
theorem c2_password_gate (P fileName content : String) (st : SenderConnState)
    (v : Json) (h : typeIs v "ready" = true) :
    (fieldEqStr v "password" P = false →
      (senderHandleVal true P fileName content st v).sent =
        [SenderMsg.errorMsg "Invalid password"] ∧
      (senderHandleVal true P fileName content st v).closeScheduled = true ∧
      ∀ fn fs, SenderMsg.metadata fn fs ∉
        (senderHandleVal true P fileName content st v).sent) ∧
    (fieldEqStr v "password" P = true →
      (senderHandleVal true P fileName content st v).sent =
        [SenderMsg.metadata fileName content.length,
         SenderMsg.fileData content]) := by
  constructor
  · intro hpw
    have hcond : (true && typeIs v "ready" &&
        !fieldEqStr v "password" P) = true := by
      simp [h, hpw]
    unfold senderHandleVal
    rw [if_pos hcond]
    refine ⟨rfl, rfl, ?_⟩
    intro fn fs hmem
    simp at hmem
  · intro hpw
    unfold senderHandleVal
    rw [if_neg (by simp [hpw]), if_pos h]

/-- C2 witness: concrete ready frames against the session password
hunter2, one wrong and one right. -/
theorem c2_password_gate_witness :
    (senderHandleVal true "hunter2" "report.pdf" "hello"
        ⟨"Unknown client", false, 0⟩
        (Json.obj [("type", Json.str "ready"),
                   ("clientName", Json.str "laptop"),
                   ("password", Json.str "secret")])).sent =
      [SenderMsg.errorMsg "Invalid password"] ∧
    (senderHandleVal true "hunter2" "report.pdf" "hello"
        ⟨"Unknown client", false, 0⟩
        (Json.obj [("type", Json.str "ready"),
                   ("clientName", Json.str "laptop"),
                   ("password", Json.str "hunter2")])).sent =
      [SenderMsg.metadata "report.pdf" 5, SenderMsg.fileData "hello"] := by
  constructor
  · exact ((c2_password_gate "hunter2" "report.pdf" "hello"
      ⟨"Unknown client", false, 0⟩
      (Json.obj [("type", Json.str "ready"),
                 ("clientName", Json.str "laptop"),
                 ("password", Json.str "secret")]) rfl).1 rfl).1
  · exact (c2_password_gate "hunter2" "report.pdf" "hello"
      ⟨"Unknown client", false, 0⟩
      (Json.obj [("type", Json.str "ready"),
                 ("clientName", Json.str "laptop"),
                 ("password", Json.str "hunter2")]) rfl).2 rfl

/-- C3 counterexample: a received acknowledgment arriving while zero bytes
of a five-byte file have been streamed is handled as a success: the sender
sends no protocol-violation report (it sends nothing at all), marks the
transfer complete and re-arms the 30 minute inactivity timer.  This
refutes the claim that an early acknowledgment is flagged and does not
silently reset the timer. -/
theorem c3_early_ack_counterexample :
    (⟨"Unknown client", false, 0⟩ : SenderConnState).bytesSent ≠
      ("hello" : String).length ∧
    (senderHandleVal false "" "report.pdf" "hello"
        ⟨"Unknown client", false, 0⟩
        (Json.obj [("type", Json.str "received"),
                   ("clientName", Json.str "laptop"),
                   ("savePath", Json.str "downloads/report.pdf")])).sent =
      [] ∧
    (senderHandleVal false "" "report.pdf" "hello"
        ⟨"Unknown client", false, 0⟩
        (Json.obj [("type", Json.str "received"),
                   ("clientName", Json.str "laptop"),
                   ("savePath", Json.str "downloads/report.pdf")])).timerResetMs =
      some inactivityTimeoutMs ∧
    (senderHandleVal false "" "report.pdf" "hello"
        ⟨"Unknown client", false, 0⟩
        (Json.obj [("type", Json.str "received"),
                   ("clientName", Json.str "laptop"),
                   ("savePath", Json.str "downloads/report.pdf")])).state.transferComplete =
      true := by
  refine ⟨by decide, rfl, rfl, rfl⟩

/-- C3 (amended): the sender accepts a received acknowledgment no matter
how many bytes have been streamed on the connection: it emits no
protocol-violation report, marks the transfer complete and resets the
session inactivity timer to the full 30 minutes, identically for every
value of the bytesSent counter. -/
theorem c3_early_ack_accepted (usePassword : Bool)
    (password fileName content : String) (st : SenderConnState) (v : Json)
    (h : typeIs v "received" = true) :
    (senderHandleVal usePassword password fileName content st v).sent = [] ∧
    (senderHandleVal usePassword password fileName content st v).timerResetMs =
      some inactivityTimeoutMs ∧
    (senderHandleVal usePassword password fileName content st
        v).state.transferComplete = true := by
  rw [senderHandleVal_received usePassword password fileName content st v h]
  exact ⟨rfl, rfl, rfl⟩

/-- C3 witness: the amended claim at a ready-made received frame and a
connection that has streamed no bytes. -/
theorem c3_early_ack_accepted_witness :
    (senderHandleVal true "hunter2" "report.pdf" "hello"
        ⟨"laptop", false, 0⟩
        (Json.obj [("type", Json.str "received")])).sent = [] ∧
    (senderHandleVal true "hunter2" "report.pdf" "hello"
        ⟨"laptop", false, 0⟩
        (Json.obj [("type", Json.str "received")])).timerResetMs =
      some inactivityTimeoutMs ∧
    (senderHandleVal true "hunter2" "report.pdf" "hello"
        ⟨"laptop", false, 0⟩
        (Json.obj [("type", Json.str "received")])).state.transferComplete =
      true :=
  c3_early_ack_accepted true "hunter2" "report.pdf" "hello"
    ⟨"laptop", false, 0⟩ (Json.obj [("type", Json.str "received")]) rfl

/-- C4: processing a received acknowledgment makes the per-connection
state terminal (transferComplete), does not close the WebSocket server
(the listener keeps accepting connections), and re-arms the session
inactivity timer to a fresh 30 minute deadline. -/
theorem c4_received_keeps_listener (usePassword : Bool)
    (password fileName content : String) (st : SenderConnState) (v : Json)
    (h : typeIs v "received" = true) :
    (senderHandleVal usePassword password fileName content
        st v).state.transferComplete = true ∧
    (senderHandleVal usePassword password fileName content st
        v).serverClosed = false ∧
    (senderHandleVal usePassword password fileName content st v).timerResetMs =
      some inactivityTimeoutMs ∧
    inactivityTimeoutMs = 30 * 60 * 1000 := by
  rw [senderHandleVal_received usePassword password fileName content st v h]
  exact ⟨rfl, rfl, rfl, rfl⟩

/-- C4 witness: the statement at a concrete received frame. -/
theorem c4_received_keeps_listener_witness :
    (senderHandleVal false "" "report.pdf" "hello"
        ⟨"laptop", false, 5⟩
        (Json.obj [("type", Json.str "received"),
                   ("clientName", Json.str "laptop")])).state.transferComplete =
      true ∧
    (senderHandleVal false "" "report.pdf" "hello"
        ⟨"laptop", false, 5⟩
        (Json.obj [("type", Json.str "received"),
                   ("clientName", Json.str "laptop")])).serverClosed = false ∧
    (senderHandleVal false "" "report.pdf" "hello"
        ⟨"laptop", false, 5⟩
        (Json.obj [("type", Json.str "received"),
                   ("clientName", Json.str "laptop")])).timerResetMs =
      some inactivityTimeoutMs ∧
    inactivityTimeoutMs = 30 * 60 * 1000 :=
  c4_received_keeps_listener false "" "report.pdf" "hello"
    ⟨"laptop", false, 5⟩
    (Json.obj [("type", Json.str "received"),
               ("clientName", Json.str "laptop")]) rfl

/-- C5 counterexample: with forced-tunnel mode on, a tunnel-creation
failure does not produce a hard failure, and local sharing still
proceeds — the catch block only prints an extra notice.  This refutes the
claim that the sender hard-fails instead of falling back. -/
theorem c5_forced_tunnel_counterexample :
    ¬((handleTunnelFailure true).hardFailure = true ∧
      (handleTunnelFailure true).localSharingContinues = false) := by
  intro h
  exact Bool.noConfusion h.1

/-- C5 (amended): on tunnel-creation failure or timeout (the bound is
30000 ms) the sender always warns and falls back to local-only sharing;
forced-tunnel mode only adds a failure notice, and in no case is there a
hard failure. -/
theorem c5_tunnel_failure_fallback (forceTunnel : Bool) :
    handleTunnelFailure forceTunnel =
      { warningShown := true
        forcedFailureNoticeShown := forceTunnel
        hardFailure := false
        localSharingContinues := true } ∧
    tunnelCreationTimeoutMs = 30000 :=
  ⟨rfl, rfl⟩

/-! ## Round-trip integrity of one transfer -/

/-- The receiver only ever writes the received frame itself to the
destination file. -/
theorem receiverDispatch_writeFile (raw d : String)
    (h : receiverDispatch raw = RecvAction.writeFile d) : d = raw := by
  unfold receiverDispatch at h
  cases o : jsonParse raw with
  | none =>
    rw [o] at h
    simp only [Option.elim_none] at h
    injection h with h1
    exact h1.symm
  | some v =>
    rw [o] at h
    simp only [Option.elim_some] at h
    by_cases hn : v.isNull = true
    · rw [if_pos hn] at h
      injection h with h1
      exact h1.symm
    · rw [if_neg hn] at h
      repeat' split at h
      all_goals simp at h

/-- C1: whenever a send/receive run succeeds (the receiver writes a
destination file), the written content is byte-identical to the source
file content, and in particular exactly S bytes are delivered for a
source of size S. -/
theorem c1_roundtrip_integrity (fileName content d : String)
    (h : transferDelivered fileName content = some d) :
    d = content ∧ d.length = content.length := by
  have hd : d = content := by
    unfold transferDelivered senderWireFrames at h
    simp only [List.map_cons, List.map_nil] at h
    rw [receiverDispatch_metadataFrame fileName content.length] at h
    simp only [firstWritten, RecvAction.writtenData, Option.elim_none] at h
    cases hdisp : receiverDispatch content with
    | writeFile w =>
      rw [hdisp] at h
      simp only [RecvAction.writtenData, Option.elim_some] at h
      injection h with h1
      rw [← h1]
      exact receiverDispatch_writeFile content w hdisp
    | recordMeta =>
      rw [hdisp] at h
      simp [RecvAction.writtenData, firstWritten] at h
    | promptRetry =>
      rw [hdisp] at h
      simp [RecvAction.writtenData, firstWritten] at h
    | fatalError =>
      rw [hdisp] at h
      simp [RecvAction.writtenData, firstWritten] at h
    | sendPong =>
      rw [hdisp] at h
      simp [RecvAction.writtenData, firstWritten] at h
    | ignore =>
      rw [hdisp] at h
      simp [RecvAction.writtenData, firstWritten] at h
  exact ⟨hd, by rw [hd]⟩

/-- C1 witness: a 12-byte file is delivered byte-identical. -/
theorem c1_roundtrip_integrity_witness :
    transferDelivered "report.pdf" "hello, world" = some "hello, world" ∧
    (("hello, world" : String) = "hello, world" ∧
      ("hello, world" : String).length = ("hello, world" : String).length) :=
  ⟨rfl, c1_roundtrip_integrity "report.pdf" "hello, world" "hello, world" rfl⟩

/-- C8: the two-byte file content consisting of an open and a close brace
parses as the structured control format, so the receiver dispatches it as
a control frame that matches no branch and the run never writes the
destination file: the payload is misrouted. -/
theorem c8_json_payload_misrouted :
    jsonParse "\x7b\x7d" = some (Json.obj []) ∧
    receiverDispatch "\x7b\x7d" = RecvAction.ignore ∧
    transferDelivered "notes.json" "\x7b\x7d" = none :=
  ⟨rfl, rfl, rfl⟩

/-! ## Destination collision naming -/

/-- C6: receiving report.pdf into an empty directory, then into a
directory holding report.pdf, then into one holding both produces
report.pdf, report_1.pdf and report_2.pdf, and the chosen name is never
one of the existing files. -/
theorem c6_collision_naming :
    resolvePath [] "report.pdf" = some "report.pdf" ∧
    resolvePath ["report.pdf"] "report.pdf" = some "report_1.pdf" ∧
    resolvePath ["report.pdf", "report_1.pdf"] "report.pdf" =
      some "report_2.pdf" ∧
    ("report_2.pdf" : String) ∉ (["report.pdf", "report_1.pdf"] : List String) := by
  refine ⟨by decide, by decide, by decide, by decide⟩

/-! ## Termination and correctness of the collision loop -/

theorem splitExtAux_join :
    ∀ (cs b e : List Char), splitExtAux cs = some (b, e) → b ++ e = cs := by
  intro cs
  induction cs with
  | nil => intro b e h; simp [splitExtAux] at h
  | cons c cs ih =>
    intro b e h
    unfold splitExtAux at h
    cases o : splitExtAux cs with
    | some p =>
      rw [o] at h
      simp only [Option.elim_some] at h
      injection h with h1
      injection h1 with hb he
      rw [← hb, ← he]
      simpa using congrArg (fun l => c :: l) (ih p.1 p.2 (by rw [o]))
    | none =>
      rw [o] at h
      simp only [Option.elim_none] at h
      by_cases hc : c = '.'
      · rw [if_pos hc] at h
        injection h with h1
        injection h1 with hb he
        rw [← hb, ← he, hc]
        rfl
      · rw [if_neg hc] at h
        exact Option.noConfusion h

theorem splitExt_join (s : String) :
    (splitExt s).1.data ++ (splitExt s).2.data = s.data := by
  unfold splitExt
  cases o : splitExtAux s.data with
  | none => simp
  | some p =>
    simp only [Option.elim_some]
    by_cases hb : p.1 = []
    · simp only [if_pos hb]
      simp
    · simp only [if_neg hb]
      exact splitExtAux_join s.data p.1 p.2 (by rw [o])

theorem candName_injective (fileName base ext : String)
    (hjoin : base.data ++ ext.data = fileName.data) :
    Function.Injective (candName fileName base ext) := by
  have hdata : ∀ n : Nat, (candName fileName base ext (n + 1)).data =
      base.data ++ ('_' :: natDecChars (n + 1) ++ ext.data) := by
    intro n
    show (base ++ "_" ++ String.mk (natDecChars (n + 1)) ++ ext).data = _
    simp [String.data_append, List.append_assoc]
  intro i j hij
  match i, j with
  | 0, 0 => rfl
  | 0, j + 1 =>
    exfalso
    rw [show (candName fileName base ext 0) = fileName from rfl] at hij
    have h2 := congrArg String.data hij
    rw [hdata j, ← hjoin] at h2
    have h3 := congrArg List.length h2
    simp only [List.length_append, List.length_cons] at h3
    have h4 := natDecChars_ne_nil (j + 1)
    have h5 : 0 < (natDecChars (j + 1)).length := List.length_pos.mpr h4
    omega
  | i + 1, 0 =>
    exfalso
    rw [show (candName fileName base ext 0) = fileName from rfl] at hij
    have h2 := congrArg String.data hij
    rw [hdata i, ← hjoin] at h2
    have h3 := congrArg List.length h2
    simp only [List.length_append, List.length_cons] at h3
    have h4 := natDecChars_ne_nil (i + 1)
    have h5 : 0 < (natDecChars (i + 1)).length := List.length_pos.mpr h4
    omega
  | i + 1, j + 1 =>
    have h2 := congrArg String.data hij
    rw [hdata i, hdata j] at h2
    have h3 := List.append_cancel_left h2
    injection h3 with _ h4
    have h5 := List.append_cancel_right h4
    have := natDecChars_injective h5
    omega

theorem exists_free_candidate (existing : List String) (c : Nat → String)
    (hc : Function.Injective c) :
    ∃ i, i ≤ existing.length ∧ c i ∉ existing := by
  by_contra hno
  push_neg at hno
  have hall : ∀ i ∈ List.range (existing.length + 1), c i ∈ existing := by
    intro i hi
    exact hno i (by simpa [Nat.lt_succ_iff] using List.mem_range.mp hi)
  have hnodup : ((List.range (existing.length + 1)).map c).Nodup :=
    (List.nodup_range _).map hc
  have hsub : ((List.range (existing.length + 1)).map c).toFinset ⊆
      existing.toFinset := by
    intro x hx
    rw [List.mem_toFinset] at hx
    obtain ⟨i, hi, rfl⟩ := List.mem_map.mp hx
    exact List.mem_toFinset.mpr (hall i hi)
  have h1 : ((List.range (existing.length + 1)).map c).toFinset.card =
      existing.length + 1 := by
    rw [List.toFinset_card_of_nodup hnodup]
    simp
  have h2 := Finset.card_le_card hsub
  have h3 := List.toFinset_card_le existing
  omega

theorem findFreeAux_some (existing : List String) (fileName base ext : String) :
    ∀ (fuel i : Nat),
      (∃ j, i ≤ j ∧ j < i + fuel ∧ candName fileName base ext j ∉ existing) →
      ∃ p, findFreeAux existing fileName base ext fuel i = some p ∧
        p ∉ existing := by
  intro fuel
  induction fuel with
  | zero =>
    rintro i ⟨j, h1, h2, _⟩
    omega
  | succ f ih =>
    rintro i ⟨j, hij, hlt, hfree⟩
    by_cases hmem : candName fileName base ext i ∈ existing
    · rw [show findFreeAux existing fileName base ext (f + 1) i =
        findFreeAux existing fileName base ext f (i + 1) from by
          simp [findFreeAux, hmem]]
      apply ih (i + 1)
      have hne : j ≠ i := by
        intro hji
        rw [hji] at hfree
        exact hfree hmem
      exact ⟨j, by omega, by omega, hfree⟩
    · exact ⟨candName fileName base ext i, by simp [findFreeAux, hmem], hmem⟩

/-- C9: for every set of existing destination files and every requested
file name, the candidate names of the collision loop are pairwise
distinct, and the loop terminates with a chosen path that is not among
the existing files (so nothing is ever overwritten). -/
theorem c9_collision_loop_correct (existing : List String)
    (fileName : String) :
    Function.Injective
      (candName fileName (splitExt fileName).1 (splitExt fileName).2) ∧
    ∃ p, resolvePath existing fileName = some p ∧ p ∉ existing := by
  have hinj := candName_injective fileName (splitExt fileName).1
    (splitExt fileName).2 (splitExt_join fileName)
  refine ⟨hinj, ?_⟩
  obtain ⟨j, hj, hfree⟩ := exists_free_candidate existing _ hinj
  exact findFreeAux_some existing fileName (splitExt fileName).1
    (splitExt fileName).2 (existing.length + 1) 0 ⟨j, by omega, by omega, hfree⟩

/-! ## Tunnel teardown and the registry -/

theorem closeTunnel_foldl_empties :
    ∀ (urls : List String) (st : TunnelState),
      (∀ x ∈ st.activeTunnels, x ∈ urls) →
      (List.foldl (fun s u => (closeTunnel s u).2) st urls).activeTunnels =
        [] := by
  intro urls
  induction urls with
  | nil =>
    intro st h
    simp only [List.foldl_nil]
    exact List.eq_nil_iff_forall_not_mem.mpr (fun x hx => by simpa using h x hx)
  | cons u us ih =>
    intro st h
    simp only [List.foldl_cons]
    apply ih
    intro x hx
    simp only [closeTunnel, List.mem_filter, decide_eq_true_eq] at hx
    rcases List.mem_cons.mp (h x hx.1) with h1 | h1
    · exact absurd h1 hx.2
    · exact h1

theorem closeAllTunnels_result (st : TunnelState) :
    (closeAllTunnels st).1 =
      ⟨st.activeTunnels.length, 0, []⟩ := rfl

theorem closeAllTunnels_clears (st : TunnelState) :
    (closeAllTunnels st).2.activeTunnels = [] ∧
    (closeAllTunnels st).2.registry = [] := by
  constructor
  · exact closeTunnel_foldl_empties st.activeTunnels st (fun x hx => hx)
  · rfl

/-- C7: tunnel teardown is idempotent and error-free: on a session with
zero tunnels it returns the zero-count success result, and so does an
immediately repeated call; after any teardown a second teardown always
returns the zero-count success result; and closing a URL that is not
tracked is a success that leaves the state unchanged. -/
theorem c7_closeAllTunnels_idempotent :
    (∀ st : TunnelState, st.activeTunnels = [] →
      (closeAllTunnels st).1 = ⟨0, 0, []⟩ ∧
      (closeAllTunnels (closeAllTunnels st).2).1 = ⟨0, 0, []⟩) ∧
    (∀ st : TunnelState,
      (closeAllTunnels (closeAllTunnels st).2).1 = ⟨0, 0, []⟩) ∧
    (∀ (st : TunnelState) (url : String), url ∉ st.activeTunnels →
      url ∉ st.registry → closeTunnel st url = (true, st)) := by
  have hsecond : ∀ st : TunnelState,
      (closeAllTunnels (closeAllTunnels st).2).1 = ⟨0, 0, []⟩ := by
    intro st
    rw [closeAllTunnels_result, (closeAllTunnels_clears st).1]
    rfl
  refine ⟨?_, hsecond, ?_⟩
  · intro st hst
    refine ⟨?_, hsecond st⟩
    rw [closeAllTunnels_result, hst]
    rfl
  · intro st url hactive hreg
    have h1 : List.filter (fun t => !decide (t = url)) st.activeTunnels =
        st.activeTunnels := by
      apply List.filter_eq_self.mpr
      intro x hx
      simp only [Bool.not_eq_true', decide_eq_false_iff_not]
      intro hxu
      rw [hxu] at hx
      exact hactive hx
    have h2 : List.filter (fun t => !decide (t = url)) st.registry =
        st.registry := by
      apply List.filter_eq_self.mpr
      intro x hx
      simp only [Bool.not_eq_true', decide_eq_false_iff_not]
      intro hxu
      rw [hxu] at hx
      exact hreg hx
    simp [closeTunnel, h1, h2]

/-- C7 witness: both parts at a session with zero tunnels and an
unregistered URL. -/
theorem c7_closeAllTunnels_idempotent_witness :
    ((closeAllTunnels ⟨[], []⟩).1 = ⟨0, 0, []⟩ ∧
      (closeAllTunnels (closeAllTunnels ⟨[], []⟩).2).1 = ⟨0, 0, []⟩) ∧
    closeTunnel ⟨[], []⟩ "https://demo.serveo.net" = (true, ⟨[], []⟩) :=
  ⟨c7_closeAllTunnels_idempotent.1 ⟨[], []⟩ rfl,
    c7_closeAllTunnels_idempotent.2.2 ⟨[], []⟩ "https://demo.serveo.net"
      (by simp) (by simp)⟩

/-- C10: registering a URL that is already in the persisted registry
leaves the registry unchanged, and registration preserves freedom from
duplicates, so the registry never accumulates duplicate entries. -/
theorem c10_registerTunnel_idempotent :
    (∀ (registry : List String) (url : String), url ∈ registry →
      registerTunnel registry url = registry) ∧
    (∀ (registry : List String) (url : String), registry.Nodup →
      (registerTunnel registry url).Nodup) := by
  constructor
  · intro r u h
    simp [registerTunnel, h]
  · intro r u h
    unfold registerTunnel
    by_cases hm : u ∈ r
    · rw [if_pos hm]
      exact h
    · rw [if_neg hm]
      simp [List.nodup_append, h, hm]

/-- C10 witness: re-registering an already registered URL is the
identity, and registration of a fresh URL keeps the registry free of
duplicates. -/
theorem c10_registerTunnel_idempotent_witness :
    registerTunnel ["https://a.serveo.net"] "https://a.serveo.net" =
      ["https://a.serveo.net"] ∧
    (registerTunnel ["https://a.serveo.net"] "https://b.serveo.net").Nodup :=
  ⟨c10_registerTunnel_idempotent.1 ["https://a.serveo.net"]
      "https://a.serveo.net" (by simp),
    c10_registerTunnel_idempotent.2 ["https://a.serveo.net"]
      "https://b.serveo.net" (by simp)⟩

end FileZap
